import Mathlib

/-!
# Verification of the apptree menu-navigation engine

Shallow embedding of `src/Sources/apptree.c` / `src/Includes/apptree.h`
(cmlaw1993/apptree).

Modelling conventions:

* Node pointers are indices into an arena (`List apptree_node`) held by the
  control structure; the intrusive child list of the C code (built with
  `list_add_tail`, read positionally with `list_travese_to_index`) is
  modelled by the ordered list of child indices stored on the parent.
* The C `int` fields (`picture_height`, `frame_pos`, `select_pos`) are
  modelled as `Int`.
* Rendering (`apptree_print_menu`) and node activation callbacks are
  external effects; the handlers record them as abstract output events.
  A node's `function` pointer is modelled by a `Bool` (null / non-null);
  the callback itself is an external collaborator that does not touch
  engine state.
* The external non-blocking input source (`apptree_read`) is modelled by an
  `Option Char` argument: `none` is "no input available" (read returns -1).
* `calloc`/`realloc` outcomes are modelled by a `Bool` allocation oracle
  where the code inspects them.
-/

/-- `enum apptree_mode` (apptree.h): Simple, Single Selection, Multi
Selection. -/
inductive apptree_mode where
  | SIMPLE
  | SINGLE_SELECTION
  | MULTI_SELECTION
deriving DecidableEq, Repr, Inhabited

/-- `struct apptree_node` (apptree.h).  `children` stands for the intrusive
`list_parent` list of the node's children in insertion order, together with
the `num_child` counter (`num_child` = `children.length`).  `isEnd` is the C
field `end` (renamed: `end` is a Lean keyword).  `function` records whether
the activation-callback pointer is non-null. -/
structure apptree_node where
  title : String
  info : Option String
  parent : Option Nat
  mode : apptree_mode
  children : List Nat
  selected : Bool
  isEnd : Bool
  function : Bool
deriving DecidableEq, Repr, Inhabited

/-- `struct apptree_keybindings` (apptree.h). -/
structure apptree_keybindings where
  up : Char
  down : Char
  select : Char
  back : Char
  home : Char
deriving DecidableEq, Repr, Inhabited

/-- `struct apptree_control` (apptree.h), extended with the node arena that
the C code keeps implicitly in the heap.  The `picture` field is the
realloc'd array of child-title pointers. -/
structure apptree_control where
  nodes : List apptree_node
  master : Nat
  current : Nat
  picture : List String
  picture_height : Int
  frame_pos : Int
  select_pos : Int
  enabled : Bool
  keys : apptree_keybindings
deriving DecidableEq, Repr, Inhabited

/-- The `FRAME_HEIGHT` configuration macro (apptree.h line 19). -/
def FRAME_HEIGHT : Int := 18

/-- Dereference a node handle (arena lookup). -/
def getNode (c : apptree_control) (id : Nat) : apptree_node :=
  c.nodes.getD id default

/-- `list_travese_to_index` + `container_of` on a node's child list: the
`i`-th child (by insertion order) of node `p`. -/
def childAt (c : apptree_control) (p : Nat) (i : Int) : Nat :=
  (getNode c p).children.getD i.toNat 0

/-- In-place mutation of one arena cell (a store through a node pointer). -/
def updateAt : List apptree_node → Nat → (apptree_node → apptree_node) → List apptree_node
  | [], _, _ => []
  | n :: t, 0, f => f n :: t
  | n :: t, i + 1, f => n :: updateAt t i f

/-- `apptree_adjust_frame_pos` (apptree.c lines 457-472), with the
`FRAME_HEIGHT` macro made an explicit first argument so that the policy can
be analysed at any configured frame height.  The machine below instantiates
it at `FRAME_HEIGHT`. -/
def apptree_adjust_frame_pos (FH ph fp sp : Int) : Int :=
  if sp = 0 then 0
  else if sp = ph - 1 then
    if ph - FH < 0 then 0 else ph - FH
  else if sp ≥ fp + FH then fp + 1
  else if sp < fp then fp - 1
  else fp

/-- `apptree_increase_select_pos` (apptree.c lines 479-485). -/
def apptree_increase_select_pos (ph sp : Int) : Int :=
  if sp = ph - 1 then 0 else sp + 1

/-- `apptree_decrease_select_pos` (apptree.c lines 492-498). -/
def apptree_decrease_select_pos (ph sp : Int) : Int :=
  if sp = 0 then ph - 1 else sp - 1

/-- Modelled from the spec (§4.3 `reframe()`): the five ordered rules, first
applicable rule wins.  Kept separate from `apptree_adjust_frame_pos` (the
code) so the two can be compared. -/
def reframe_policy (FH ph fp sp : Int) : Int :=
  if sp = 0 then 0
  else if sp = ph - 1 then max 0 (ph - FH)
  else if sp ≥ fp + FH then fp + 1
  else if sp < fp then fp - 1
  else fp

/-- The effect of one `down` input on the pair (frame_pos, select_pos), as
composed by `apptree_handle_down_input` (apptree.c lines 557-562):
increase the cursor, then adjust the frame. -/
def down_move (FH ph : Int) (p : Int × Int) : Int × Int :=
  let sp := apptree_increase_select_pos ph p.2
  (apptree_adjust_frame_pos FH ph p.1 sp, sp)

/-- C2: after each cursor move the new frame position is computed by the
first applicable rule of the spec's ordered reframe policy (the code's
`apptree_adjust_frame_pos` coincides with the policy at every frame height
and state); consequently, with 5 children and frame height 3, from
cursor 0 / frame 0 three downs give (frame 1, cursor 3), a fourth down
gives (frame 2, cursor 4), and a fifth gives (frame 0, cursor 0). -/
theorem C2_reframe_policy_and_scenario :
    (∀ FH ph fp sp : Int,
      apptree_adjust_frame_pos FH ph fp sp = reframe_policy FH ph fp sp) ∧
    (down_move 3 5)^[3] (0, 0) = (1, 3) ∧
    (down_move 3 5)^[4] (0, 0) = (2, 4) ∧
    (down_move 3 5)^[5] (0, 0) = (0, 0) := by
  refine ⟨?_, by decide, by decide, by decide⟩
  intro FH ph fp sp
  unfold apptree_adjust_frame_pos reframe_policy
  split_ifs <;> omega

/-- Output events of the engine: a full menu repaint
(`apptree_print_menu`) or the invocation of a node's activation callback
(`child->function(parent, child_idx)`). -/
inductive apptree_output where
  | menu
  | callback (parent : Nat) (child_idx : Int)
deriving DecidableEq, Repr

/-- `apptree_populate_picture` (apptree.c lines 162-173): fill the picture
with the titles of the current node's children, in order. -/
def apptree_populate_picture (c : apptree_control) : apptree_control :=
  { c with picture := (getNode c c.current).children.map (fun id => (getNode c id).title) }

/-- `apptree_resize_picture` (apptree.c lines 181-191): realloc the picture
buffer; reports -1 exactly when the allocation fails. -/
def apptree_resize_picture (allocOk : Bool) : Int :=
  if allocOk then 0 else -1

/-- Set the `selected` flag of a node (the store `child->selected = ...`). -/
def setSel (b : Bool) (n : apptree_node) : apptree_node :=
  { n with selected := b }

/-- Flip the `selected` flag of a node (the Multi-Selection branch of
`apptree_update_selected`, apptree.c lines 533-542). -/
def toggleSel (n : apptree_node) : apptree_node :=
  { n with selected := !n.selected }

/-- The Single-Selection sweep of `apptree_update_selected` (apptree.c lines
521-531): walk the children in order with loop counter `i`, setting child
`i`'s flag to `i == child_index`. -/
def sweepAux : List apptree_node → List Nat → Int → Int → List apptree_node
  | nodes, [], _, _ => nodes
  | nodes, id :: rest, ci, i =>
      sweepAux (updateAt nodes id (setSel (decide (i = ci)))) rest ci (i + 1)

/-- `apptree_update_selected` (apptree.c lines 508-544). -/
def apptree_update_selected (c : apptree_control) (parent : Nat) (child_index : Int) :
    apptree_control :=
  match (getNode c parent).mode with
  | apptree_mode.SIMPLE => c
  | apptree_mode.SINGLE_SELECTION =>
      { c with nodes := sweepAux c.nodes (getNode c parent).children child_index 0 }
  | apptree_mode.MULTI_SELECTION =>
      { c with nodes := updateAt c.nodes (childAt c parent child_index) toggleSel }

/-- `apptree_handle_up_input` (apptree.c lines 548-553). -/
def apptree_handle_up_input (c : apptree_control) : apptree_control × List apptree_output :=
  let sp := apptree_decrease_select_pos c.picture_height c.select_pos
  let fp := apptree_adjust_frame_pos FRAME_HEIGHT c.picture_height c.frame_pos sp
  ({ c with select_pos := sp, frame_pos := fp }, [apptree_output.menu])

/-- `apptree_handle_down_input` (apptree.c lines 557-562). -/
def apptree_handle_down_input (c : apptree_control) : apptree_control × List apptree_output :=
  let sp := apptree_increase_select_pos c.picture_height c.select_pos
  let fp := apptree_adjust_frame_pos FRAME_HEIGHT c.picture_height c.frame_pos sp
  ({ c with select_pos := sp, frame_pos := fp }, [apptree_output.menu])

/-- `apptree_handle_select_input` (apptree.c lines 566-592).  The resize of
the picture buffer on descent is modelled with allocation success (its
return value is discarded by the C code in any case). -/
def apptree_handle_select_input (c : apptree_control) : apptree_control × List apptree_output :=
  let childId := childAt c c.current c.select_pos
  let child := getNode c childId
  if 0 < child.children.length then
    let c1 := { c with current := childId,
                       picture_height := (child.children.length : Int),
                       frame_pos := 0, select_pos := 0 }
    (apptree_populate_picture c1, [apptree_output.menu])
  else if child.function then
    (apptree_update_selected c c.current c.select_pos,
     [apptree_output.callback c.current c.select_pos, apptree_output.menu])
  else
    (c, [])

/-- `apptree_handle_back_input` (apptree.c lines 596-610).  For a
non-master current node the C dereferences `current->parent`; nodes built
by `apptree_create_node` always have one, the degenerate null case is
defaulted to the master handle. -/
def apptree_handle_back_input (c : apptree_control) : apptree_control × List apptree_output :=
  if c.current = c.master then (c, [])
  else
    let p := (getNode c c.current).parent.getD c.master
    let c1 := { c with current := p,
                       picture_height := ((getNode c p).children.length : Int),
                       frame_pos := 0, select_pos := 0 }
    (apptree_populate_picture c1, [apptree_output.menu])

/-- `apptree_handle_home_input` (apptree.c lines 614-628). -/
def apptree_handle_home_input (c : apptree_control) : apptree_control × List apptree_output :=
  if c.current = c.master then (c, [])
  else
    let c1 := { c with current := c.master,
                       picture_height := ((getNode c c.master).children.length : Int),
                       frame_pos := 0, select_pos := 0 }
    (apptree_populate_picture c1, [apptree_output.menu])

/-- `apptree_handle_input` (apptree.c lines 636-659).  `inp` is the outcome
of `apptree_read`: `none` when the external source reports no input.  The
result component is the C return value (0 / -1). -/
def apptree_handle_input (c : apptree_control) (inp : Option Char) :
    apptree_control × List apptree_output × Int :=
  if !c.enabled then (c, [], -1)
  else
    match inp with
    | none => (c, [], -1)
    | some input =>
      if input = c.keys.up then
        let r := apptree_handle_up_input c
        (r.1, r.2, 0)
      else if input = c.keys.down then
        let r := apptree_handle_down_input c
        (r.1, r.2, 0)
      else if input = c.keys.select then
        let r := apptree_handle_select_input c
        (r.1, r.2, 0)
      else if input = c.keys.back then
        let r := apptree_handle_back_input c
        (r.1, r.2, 0)
      else if input = c.keys.home then
        let r := apptree_handle_home_input c
        (r.1, r.2, 0)
      else
        (c, [], 0)

/-- `apptree_enable` (apptree.c lines 417-435).  In the arena model the two
null guards (`control.master == NULL`, `control.keys == NULL`) cannot fire,
both handles always exist; what remains is the enable path: the return
value of `apptree_resize_picture` is computed and then discarded, exactly
as in the C, and the function returns 0. -/
def apptree_enable (c : apptree_control) (allocOk : Bool) :
    apptree_control × List apptree_output × Int :=
  let c1 := { c with current := c.master,
                     picture_height := ((getNode c c.master).children.length : Int),
                     enabled := true }
  let _rr := apptree_resize_picture allocOk
  let c2 := apptree_populate_picture c1
  (c2, [apptree_output.menu], 0)

/-- The ancestor walk of `apptree_validate_node` (apptree.c lines 324-336):
starting from the freshly linked node (whose parent is `id`'s owner), follow
parent pointers until a node with no parent is reached.  The fuel bounds the
walk; a parent cycle, on which the C loops forever, yields `none`. -/
def ancestorRoot (c : apptree_control) : Nat → Nat → Option Nat
  | 0, _ => none
  | fuel + 1, id =>
    match (getNode c id).parent with
    | none => some id
    | some p => ancestorRoot c fuel p

/-- `apptree_validate_node` (apptree.c lines 324-336) applied to a new node
whose `parent` field is `parentId`: the do/while loop first steps to
`parentId`, then ascends, and the reached root must be the master. -/
def apptree_validate_node (c : apptree_control) (parentId : Nat) : Bool :=
  match ancestorRoot c (c.nodes.length + 1) parentId with
  | some r => decide (r = c.master)
  | none => false

/-- The distinct failure sites of `apptree_create_node`; the C collapses
all of them to the single return value -1, the tag records which check
rejected the call. -/
inductive apptree_err where
  | StructureFrozen
  | EndNodeViolation
  | AllocationFailure
  | DetachedNode
deriving DecidableEq, Repr

/-- `apptree_create_node` (apptree.c lines 360-407), checks in source
order: enabled flag, parent end flag, calloc (the `allocOk` oracle),
ancestry validation; then the node is appended to the arena and to the
parent's child list (`list_add_tail` + `num_child++`), with
`end = (parent->mode != APPTREE_MODE_SIMPLE)`. -/
def apptree_create_node (c : apptree_control) (allocOk : Bool) (parent : Nat)
    (title : String) (info : String) (mode : apptree_mode) (selected : Bool)
    (function : Bool) : Except apptree_err (apptree_control × Nat) :=
  if c.enabled then Except.error apptree_err.StructureFrozen
  else if (getNode c parent).isEnd then Except.error apptree_err.EndNodeViolation
  else if !allocOk then Except.error apptree_err.AllocationFailure
  else if !apptree_validate_node c parent then Except.error apptree_err.DetachedNode
  else
    let id := c.nodes.length
    let node : apptree_node :=
      { title := title, info := some info, parent := some parent, mode := mode,
        children := [], selected := selected,
        isEnd := decide ((getNode c parent).mode ≠ apptree_mode.SIMPLE),
        function := function }
    let nodes1 := c.nodes ++ [node]
    let nodes2 := updateAt nodes1 parent (fun n => { n with children := n.children ++ [id] })
    Except.ok ({ c with nodes := nodes2 }, id)

/-! ## Arena update lemmas -/

theorem updateAt_length (l : List apptree_node) (i : Nat) (f : apptree_node → apptree_node) :
    (updateAt l i f).length = l.length := by
  induction l generalizing i with
  | nil => rfl
  | cons a t ih =>
    cases i with
    | zero => rfl
    | succ i => simp [updateAt, ih]

theorem updateAt_ge (l : List apptree_node) (i : Nat) (f : apptree_node → apptree_node)
    (h : l.length ≤ i) : updateAt l i f = l := by
  induction l generalizing i with
  | nil => rfl
  | cons a t ih =>
    cases i with
    | zero => simp at h
    | succ i =>
      simp only [updateAt, List.cons.injEq, true_and]
      exact ih i (by simp only [List.length_cons] at h; omega)

theorem updateAt_getD_ne (l : List apptree_node) (i j : Nat) (f : apptree_node → apptree_node)
    (h : j ≠ i) (d : apptree_node) : (updateAt l i f).getD j d = l.getD j d := by
  induction l generalizing i j with
  | nil => rfl
  | cons a t ih =>
    cases i with
    | zero =>
      cases j with
      | zero => exact absurd rfl h
      | succ j => simp [updateAt]
    | succ i =>
      cases j with
      | zero => simp [updateAt]
      | succ j =>
        simp only [updateAt, List.getD_cons_succ]
        exact ih i j (fun hh => h (by rw [hh])) 

theorem updateAt_getD_lt (l : List apptree_node) (i : Nat) (f : apptree_node → apptree_node)
    (h : i < l.length) (d : apptree_node) : (updateAt l i f).getD i d = f (l.getD i d) := by
  induction l generalizing i with
  | nil => simp at h
  | cons a t ih =>
    cases i with
    | zero => rfl
    | succ i =>
      simp only [updateAt, List.getD_cons_succ]
      exact ih i (by simp only [List.length_cons] at h; omega)

theorem updateAt_getD_proj {α : Type} (g : apptree_node → α) (l : List apptree_node)
    (i : Nat) (f : apptree_node → apptree_node) (hf : ∀ n, g (f n) = g n)
    (j : Nat) (d : apptree_node) :
    g ((updateAt l i f).getD j d) = g (l.getD j d) := by
  by_cases hj : j = i
  · subst hj
    by_cases hi : j < l.length
    · rw [updateAt_getD_lt l j f hi d, hf]
    · rw [updateAt_ge l j f (by omega)]
  · rw [updateAt_getD_ne l i j f hj d]

theorem getD_mem {α : Type} (l : List α) (n : Nat) (d : α) (h : n < l.length) :
    l.getD n d ∈ l := by
  induction l generalizing n with
  | nil => simp at h
  | cons a t ih =>
    cases n with
    | zero => simp
    | succ n =>
      rw [List.getD_cons_succ]
      exact List.mem_cons_of_mem a (ih n (by simp only [List.length_cons] at h; omega))

/-! ## Viewport bounds -/

theorem adjust_frame_pos_bounds (FH ph fp sp : Int)
    (hsp0 : 0 ≤ sp) (hsp1 : sp < ph)
    (hfp0 : 0 ≤ fp) (hfp1 : fp ≤ max 0 (ph - FH)) :
    0 ≤ apptree_adjust_frame_pos FH ph fp sp ∧
      apptree_adjust_frame_pos FH ph fp sp ≤ max 0 (ph - FH) := by
  unfold apptree_adjust_frame_pos
  split_ifs <;> omega

theorem increase_select_pos_range (ph sp : Int) (h0 : 0 ≤ sp) (h1 : sp < ph) :
    0 ≤ apptree_increase_select_pos ph sp ∧ apptree_increase_select_pos ph sp < ph := by
  unfold apptree_increase_select_pos
  split_ifs <;> omega

theorem decrease_select_pos_range (ph sp : Int) (h0 : 0 ≤ sp) (h1 : sp < ph) :
    0 ≤ apptree_decrease_select_pos ph sp ∧ apptree_decrease_select_pos ph sp < ph := by
  unfold apptree_decrease_select_pos
  split_ifs <;> omega

theorem sweepAux_length (nodes : List apptree_node) (ids : List Nat) (ci i : Int) :
    (sweepAux nodes ids ci i).length = nodes.length := by
  induction ids generalizing nodes i with
  | nil => rfl
  | cons a rest ih => simp [sweepAux, ih, updateAt_length]

theorem update_selected_viewport (c : apptree_control) (p : Nat) (i : Int) :
    (apptree_update_selected c p i).frame_pos = c.frame_pos ∧
    (apptree_update_selected c p i).picture_height = c.picture_height ∧
    (apptree_update_selected c p i).select_pos = c.select_pos ∧
    (apptree_update_selected c p i).current = c.current ∧
    (apptree_update_selected c p i).nodes.length = c.nodes.length := by
  unfold apptree_update_selected
  cases (getNode c p).mode <;> simp [sweepAux_length, updateAt_length]


/-! ## Dispatch characterizations of the input pump -/

theorem handle_input_disabled (c : apptree_control) (hen : c.enabled = false)
    (inp : Option Char) : apptree_handle_input c inp = (c, [], -1) := by
  unfold apptree_handle_input
  rw [hen]
  rfl

theorem handle_input_none (c : apptree_control) :
    apptree_handle_input c none = (c, [], -1) := by
  unfold apptree_handle_input
  cases h : c.enabled <;> rfl

theorem handle_input_enabled (c : apptree_control) (hen : c.enabled = true) (ch : Char) :
    apptree_handle_input c (some ch) =
      if ch = c.keys.up then
        ((apptree_handle_up_input c).1, (apptree_handle_up_input c).2, 0)
      else if ch = c.keys.down then
        ((apptree_handle_down_input c).1, (apptree_handle_down_input c).2, 0)
      else if ch = c.keys.select then
        ((apptree_handle_select_input c).1, (apptree_handle_select_input c).2, 0)
      else if ch = c.keys.back then
        ((apptree_handle_back_input c).1, (apptree_handle_back_input c).2, 0)
      else if ch = c.keys.home then
        ((apptree_handle_home_input c).1, (apptree_handle_home_input c).2, 0)
      else (c, [], 0) := by
  unfold apptree_handle_input
  rw [hen]
  rfl

/-- C1: whenever the engine is active and the cursor is in range, the
reframe computation (`apptree_adjust_frame_pos`) establishes
`0 ≤ frame_pos ≤ max 0 (picture_height - FRAME_HEIGHT)`, and every input
event (`apptree_handle_input` on any input, recognized or not, or on no
input) preserves that bound; in particular whenever the resulting
picture height is at most `FRAME_HEIGHT` the resulting frame position
is 0. -/
theorem C1_frame_pos_invariant (c : apptree_control) (inp : Option Char)
    (hen : c.enabled = true)
    (hsp0 : 0 ≤ c.select_pos) (hsp1 : c.select_pos < c.picture_height)
    (hfp0 : 0 ≤ c.frame_pos)
    (hfp1 : c.frame_pos ≤ max 0 (c.picture_height - FRAME_HEIGHT)) :
    (0 ≤ apptree_adjust_frame_pos FRAME_HEIGHT c.picture_height c.frame_pos c.select_pos ∧
      apptree_adjust_frame_pos FRAME_HEIGHT c.picture_height c.frame_pos c.select_pos ≤
        max 0 (c.picture_height - FRAME_HEIGHT)) ∧
    (0 ≤ (apptree_handle_input c inp).1.frame_pos ∧
      (apptree_handle_input c inp).1.frame_pos ≤
        max 0 ((apptree_handle_input c inp).1.picture_height - FRAME_HEIGHT) ∧
      ((apptree_handle_input c inp).1.picture_height ≤ FRAME_HEIGHT →
        (apptree_handle_input c inp).1.frame_pos = 0)) := by
  refine ⟨adjust_frame_pos_bounds _ _ _ _ hsp0 hsp1 hfp0 hfp1, ?_⟩
  cases inp with
  | none =>
    rw [handle_input_none]
    simp
    omega
  | some ch =>
    rw [handle_input_enabled c hen ch]
    by_cases h1 : ch = c.keys.up
    · rw [if_pos h1]
      obtain ⟨hd0, hd1⟩ := decrease_select_pos_range c.picture_height c.select_pos hsp0 hsp1
      obtain ⟨hb0, hb1⟩ := adjust_frame_pos_bounds FRAME_HEIGHT c.picture_height c.frame_pos
        (apptree_decrease_select_pos c.picture_height c.select_pos) hd0 hd1 hfp0 hfp1
      simp [apptree_handle_up_input]
      omega
    · rw [if_neg h1]
      by_cases h2 : ch = c.keys.down
      · rw [if_pos h2]
        obtain ⟨hd0, hd1⟩ := increase_select_pos_range c.picture_height c.select_pos hsp0 hsp1
        obtain ⟨hb0, hb1⟩ := adjust_frame_pos_bounds FRAME_HEIGHT c.picture_height c.frame_pos
          (apptree_increase_select_pos c.picture_height c.select_pos) hd0 hd1 hfp0 hfp1
        simp [apptree_handle_down_input]
        omega
      · rw [if_neg h2]
        by_cases h3 : ch = c.keys.select
        · rw [if_pos h3]
          by_cases hc : 0 < (getNode c (childAt c c.current c.select_pos)).children.length
          · simp [apptree_handle_select_input, apptree_populate_picture, hc]
          · by_cases hfun : (getNode c (childAt c c.current c.select_pos)).function = true
            · obtain ⟨hu1, hu2, hu3, hu4, hu5⟩ :=
                update_selected_viewport c c.current c.select_pos
              simp [apptree_handle_select_input, hc, hfun, hu1, hu2]
              omega
            · simp [apptree_handle_select_input, hc, hfun]
              omega
        · rw [if_neg h3]
          by_cases h4 : ch = c.keys.back
          · rw [if_pos h4]
            by_cases hm : c.current = c.master
            · simp [apptree_handle_back_input, hm]
              omega
            · simp [apptree_handle_back_input, hm, apptree_populate_picture]
          · rw [if_neg h4]
            by_cases h5 : ch = c.keys.home
            · rw [if_pos h5]
              by_cases hm : c.current = c.master
              · simp [apptree_handle_home_input, hm]
                omega
              · simp [apptree_handle_home_input, hm, apptree_populate_picture]
            · rw [if_neg h5]
              simp
              omega

/-! ## Concrete engine states for witnesses and counterexamples -/

/-- Concrete key bindings (all five distinct). -/
def demoKeys : apptree_keybindings :=
  { up := 'u', down := 'd', select := 's', back := 'b', home := 'h' }

/-- A concrete activated engine: Simple-mode master (node 0) with two leaf
children "A" (node 1, no callback) and "B" (node 2, no callback). -/
def demoCtrl : apptree_control :=
  { nodes := [
      { title := "M", info := none, parent := none, mode := apptree_mode.SIMPLE,
        children := [1, 2], selected := false, isEnd := false, function := false },
      { title := "A", info := some ("a"), parent := some 0, mode := apptree_mode.SIMPLE,
        children := [], selected := false, isEnd := false, function := false },
      { title := "B", info := some ("b"), parent := some 0, mode := apptree_mode.SIMPLE,
        children := [], selected := false, isEnd := false, function := false } ],
    master := 0, current := 0, picture := ["A", "B"], picture_height := 2,
    frame_pos := 0, select_pos := 0, enabled := true, keys := demoKeys }

/-- Witness for C1 at the concrete engine `demoCtrl` and a `down` input. -/
theorem C1_frame_pos_invariant_witness :
    (0 ≤ apptree_adjust_frame_pos FRAME_HEIGHT demoCtrl.picture_height
        demoCtrl.frame_pos demoCtrl.select_pos ∧
      apptree_adjust_frame_pos FRAME_HEIGHT demoCtrl.picture_height
          demoCtrl.frame_pos demoCtrl.select_pos ≤
        max 0 (demoCtrl.picture_height - FRAME_HEIGHT)) ∧
    (0 ≤ (apptree_handle_input demoCtrl (some 'd')).1.frame_pos ∧
      (apptree_handle_input demoCtrl (some 'd')).1.frame_pos ≤
        max 0 ((apptree_handle_input demoCtrl (some 'd')).1.picture_height - FRAME_HEIGHT) ∧
      ((apptree_handle_input demoCtrl (some 'd')).1.picture_height ≤ FRAME_HEIGHT →
        (apptree_handle_input demoCtrl (some 'd')).1.frame_pos = 0)) :=
  C1_frame_pos_invariant demoCtrl (some 'd') rfl (by decide) (by decide)
    (by decide) (by decide)

/-! ## Cursor wrap-around (C3) -/

/-- The state transition of one `up` input event (`apptree_handle_up_input`). -/
def upEvent (c : apptree_control) : apptree_control :=
  (apptree_handle_up_input c).1

/-- The state transition of one `down` input event
(`apptree_handle_down_input`). -/
def downEvent (c : apptree_control) : apptree_control :=
  (apptree_handle_down_input c).1

theorem emod_add_left_cancel (a b n : Int) : (a % n + b) % n = (a + b) % n := by
  conv_rhs => rw [Int.add_emod]
  rw [Int.add_emod (a % n) b, Int.emod_emod_of_dvd a dvd_rfl]

theorem increase_select_pos_emod (ph sp : Int) (h0 : 0 ≤ sp) (h1 : sp < ph) :
    apptree_increase_select_pos ph sp = (sp + 1) % ph := by
  unfold apptree_increase_select_pos
  split_ifs with h
  · have h2 : sp + 1 = ph := by omega
    rw [h2, Int.emod_self]
  · rw [Int.emod_eq_of_lt (by omega) (by omega)]

theorem decrease_select_pos_emod (ph sp : Int) (h0 : 0 ≤ sp) (h1 : sp < ph) :
    apptree_decrease_select_pos ph sp = (sp + (ph - 1)) % ph := by
  unfold apptree_decrease_select_pos
  split_ifs with h
  · rw [h, zero_add, Int.emod_eq_of_lt (by omega) (by omega)]
  · have h2 : sp + (ph - 1) = (sp - 1) + ph * 1 := by ring
    rw [h2, Int.add_mul_emod_self_left, Int.emod_eq_of_lt (by omega) (by omega)]

theorem downEvent_iter (n : Nat) : ∀ c : apptree_control,
    0 ≤ c.select_pos → c.select_pos < c.picture_height →
    (downEvent^[n] c).select_pos = (c.select_pos + n) % c.picture_height ∧
    (downEvent^[n] c).picture_height = c.picture_height := by
  induction n with
  | zero =>
    intro c h0 h1
    simp only [Function.iterate_zero, id_eq]
    rw [Nat.cast_zero, add_zero, Int.emod_eq_of_lt h0 h1]
    exact ⟨rfl, trivial⟩
  | succ n ih =>
    intro c h0 h1
    have hph : 0 < c.picture_height := by omega
    have hsp : (downEvent c).select_pos = (c.select_pos + 1) % c.picture_height := by
      show apptree_increase_select_pos c.picture_height c.select_pos = _
      exact increase_select_pos_emod c.picture_height c.select_pos h0 h1
    have hph2 : (downEvent c).picture_height = c.picture_height := rfl
    have h0n : 0 ≤ (downEvent c).select_pos := by
      rw [hsp]; exact Int.emod_nonneg _ (by omega)
    have h1n : (downEvent c).select_pos < (downEvent c).picture_height := by
      rw [hsp, hph2]; exact Int.emod_lt_of_pos _ hph
    obtain ⟨ih1, ih2⟩ := ih (downEvent c) h0n h1n
    rw [Function.iterate_succ_apply]
    refine ⟨?_, by rw [ih2, hph2]⟩
    rw [ih1, hsp, hph2, emod_add_left_cancel]
    congr 1
    push_cast
    ring

theorem upEvent_iter (n : Nat) : ∀ c : apptree_control,
    0 ≤ c.select_pos → c.select_pos < c.picture_height →
    (upEvent^[n] c).select_pos =
      (c.select_pos + n * (c.picture_height - 1)) % c.picture_height ∧
    (upEvent^[n] c).picture_height = c.picture_height := by
  induction n with
  | zero =>
    intro c h0 h1
    simp only [Function.iterate_zero, id_eq]
    rw [Nat.cast_zero, zero_mul, add_zero, Int.emod_eq_of_lt h0 h1]
    exact ⟨rfl, trivial⟩
  | succ n ih =>
    intro c h0 h1
    have hph : 0 < c.picture_height := by omega
    have hsp : (upEvent c).select_pos =
        (c.select_pos + (c.picture_height - 1)) % c.picture_height := by
      show apptree_decrease_select_pos c.picture_height c.select_pos = _
      exact decrease_select_pos_emod c.picture_height c.select_pos h0 h1
    have hph2 : (upEvent c).picture_height = c.picture_height := rfl
    have h0n : 0 ≤ (upEvent c).select_pos := by
      rw [hsp]; exact Int.emod_nonneg _ (by omega)
    have h1n : (upEvent c).select_pos < (upEvent c).picture_height := by
      rw [hsp, hph2]; exact Int.emod_lt_of_pos _ hph
    obtain ⟨ih1, ih2⟩ := ih (upEvent c) h0n h1n
    rw [Function.iterate_succ_apply]
    refine ⟨?_, by rw [ih2, hph2]⟩
    rw [ih1, hsp, hph2, emod_add_left_cancel]
    congr 1
    push_cast
    ring

/-- C3: on an active node with `n > 0` children (picture height = child
count), `n` consecutive `down` events return the cursor to its starting
value, and so do `n` consecutive `up` events. -/
theorem C3_wrap_closure (c : apptree_control)
    (hen : c.enabled = true)
    (hlink : c.picture_height = ((getNode c c.current).children.length : Int))
    (hn : 0 < (getNode c c.current).children.length)
    (hsp0 : 0 ≤ c.select_pos) (hsp1 : c.select_pos < c.picture_height) :
    (downEvent^[(getNode c c.current).children.length] c).select_pos = c.select_pos ∧
    (upEvent^[(getNode c c.current).children.length] c).select_pos = c.select_pos := by
  constructor
  · obtain ⟨h1, _⟩ := downEvent_iter (getNode c c.current).children.length c hsp0 hsp1
    rw [h1, ← hlink]
    have h2 : c.select_pos + c.picture_height = c.select_pos + c.picture_height * 1 := by
      ring
    rw [h2, Int.add_mul_emod_self_left, Int.emod_eq_of_lt hsp0 hsp1]
  · obtain ⟨h1, _⟩ := upEvent_iter (getNode c c.current).children.length c hsp0 hsp1
    rw [h1, ← hlink, Int.add_mul_emod_self_left, Int.emod_eq_of_lt hsp0 hsp1]

/-- Witness for C3 at the concrete engine `demoCtrl` (2 children). -/
theorem C3_wrap_closure_witness :
    (downEvent^[(getNode demoCtrl demoCtrl.current).children.length] demoCtrl).select_pos
        = demoCtrl.select_pos ∧
    (upEvent^[(getNode demoCtrl demoCtrl.current).children.length] demoCtrl).select_pos
        = demoCtrl.select_pos :=
  C3_wrap_closure demoCtrl rfl (by decide) (by decide) (by decide) (by decide)

/-! ## Selection-model lemmas (C4, C5) -/

theorem sweepAux_getD_not_mem (ids : List Nat) : ∀ (nodes : List apptree_node) (ci i : Int)
    (id : Nat), id ∉ ids →
    (sweepAux nodes ids ci i).getD id default = nodes.getD id default := by
  induction ids with
  | nil => intro nodes ci i id h; rfl
  | cons a rest ih =>
    intro nodes ci i id h
    simp only [sweepAux]
    rw [ih _ _ _ _ (fun hm => h (List.mem_cons_of_mem a hm))]
    exact updateAt_getD_ne nodes a id _
      (fun he => h (by rw [he]; exact List.mem_cons_self a rest)) default

theorem sweepAux_getD_at (ids : List Nat) : ∀ (nodes : List apptree_node) (ci i : Int)
    (j : Nat), ids.Nodup → (∀ id ∈ ids, id < nodes.length) → j < ids.length →
    (sweepAux nodes ids ci i).getD (ids.getD j 0) default =
      setSel (decide (i + (j : Int) = ci)) (nodes.getD (ids.getD j 0) default) := by
  induction ids with
  | nil => intro nodes ci i j hnd hb hj; simp at hj
  | cons a rest ih =>
    intro nodes ci i j hnd hb hj
    obtain ⟨ha, hrest⟩ := List.nodup_cons.mp hnd
    cases j with
    | zero =>
      simp only [List.getD_cons_zero, sweepAux]
      rw [sweepAux_getD_not_mem rest _ _ _ _ ha,
        updateAt_getD_lt nodes a _ (hb a (List.mem_cons_self a rest)) default]
      simp only [Nat.cast_zero, add_zero]
    | succ j =>
      simp only [List.getD_cons_succ, sweepAux]
      have hmem : rest.getD j 0 ∈ rest :=
        getD_mem rest j 0 (by simp only [List.length_cons] at hj; omega)
      have hb2 : ∀ id ∈ rest, id < (updateAt nodes a (setSel (decide (i = ci)))).length := by
        intro id hm
        rw [updateAt_length]
        exact hb id (List.mem_cons_of_mem a hm)
      rw [ih _ _ _ _ hrest hb2 (by simp only [List.length_cons] at hj; omega),
        updateAt_getD_ne nodes a (rest.getD j 0) _
          (fun he => ha (by rw [← he]; exact hmem)) default]
      have harg : i + 1 + (j : Int) = i + ((j + 1 : Nat) : Int) := by push_cast; ring
      simp only [harg]

theorem sweepAux_getD_proj {α : Type} (g : apptree_node → α)
    (hg : ∀ b n, g (setSel b n) = g n) (ids : List Nat) :
    ∀ (nodes : List apptree_node) (ci i : Int) (id : Nat),
    g ((sweepAux nodes ids ci i).getD id default) = g (nodes.getD id default) := by
  induction ids with
  | nil => intro nodes ci i id; rfl
  | cons a rest ih =>
    intro nodes ci i id
    simp only [sweepAux]
    rw [ih]
    exact updateAt_getD_proj g nodes a _ (fun n => hg _ n) id default

theorem update_selected_getD_proj {α : Type} (g : apptree_node → α)
    (hg : ∀ b n, g (setSel b n) = g n)
    (c : apptree_control) (p : Nat) (ci : Int) (id : Nat) :
    g (getNode (apptree_update_selected c p ci) id) = g (getNode c id) := by
  unfold apptree_update_selected
  cases hm : (getNode c p).mode with
  | SIMPLE => rfl
  | SINGLE_SELECTION =>
    show g ((sweepAux c.nodes (getNode c p).children ci 0).getD id default) = _
    exact sweepAux_getD_proj g hg (getNode c p).children c.nodes ci 0 id
  | MULTI_SELECTION =>
    show g ((updateAt c.nodes (childAt c p ci) toggleSel).getD id default) = _
    exact updateAt_getD_proj g c.nodes (childAt c p ci) _ (fun n => hg (!n.selected) n) id default

theorem update_selected_single_indicator (c : apptree_control) (p : Nat) (ci : Int)
    (hmode : (getNode c p).mode = apptree_mode.SINGLE_SELECTION)
    (hnd : (getNode c p).children.Nodup)
    (hb : ∀ id ∈ (getNode c p).children, id < c.nodes.length)
    (j : Nat) (hj : j < (getNode c p).children.length) :
    (getNode (apptree_update_selected c p ci) ((getNode c p).children.getD j 0)).selected
      = decide ((j : Int) = ci) := by
  unfold apptree_update_selected
  rw [hmode]
  show ((sweepAux c.nodes (getNode c p).children ci 0).getD
      ((getNode c p).children.getD j 0) default).selected = decide ((j : Int) = ci)
  rw [sweepAux_getD_at (getNode c p).children c.nodes ci 0 j hnd hb hj]
  show decide ((0 : Int) + (j : Int) = ci) = decide ((j : Int) = ci)
  simp only [zero_add]

theorem update_selected_multi (c : apptree_control) (p : Nat) (ci : Int)
    (hmode : (getNode c p).mode = apptree_mode.MULTI_SELECTION) :
    apptree_update_selected c p ci =
      { c with nodes := updateAt c.nodes (childAt c p ci) toggleSel } := by
  unfold apptree_update_selected
  rw [hmode]

/-- Characterization of a `select` input on a childless child: either the
activation callback runs followed by the selection update and a repaint, or
(no callback) nothing at all happens. -/
theorem handle_select_input_cases (c : apptree_control)
    (hleaf : (getNode c (childAt c c.current c.select_pos)).children = []) :
    apptree_handle_select_input c =
      if (getNode c (childAt c c.current c.select_pos)).function = true
      then (apptree_update_selected c c.current c.select_pos,
            [apptree_output.callback c.current c.select_pos, apptree_output.menu])
      else (c, []) := by
  simp only [apptree_handle_select_input, hleaf]
  simp

/-- At most one child of node `p` carries `selected = true`, stated on
child positions. -/
def atMostOne (c : apptree_control) (p : Nat) : Prop :=
  ∀ j k : Nat, j < (getNode c p).children.length → k < (getNode c p).children.length →
    (getNode c ((getNode c p).children.getD j 0)).selected = true →
    (getNode c ((getNode c p).children.getD k 0)).selected = true → j = k

/-- One `select` input event delivered with the cursor on child index `i`
of the current node (cursor motion between selects only moves
`select_pos`, so an arbitrary interleaving of up/down events between
selects is captured by the per-event index). -/
def selectAt (c : apptree_control) (i : Int) : apptree_control :=
  (apptree_handle_select_input { c with select_pos := i }).1

/-- A sequence of `select` events at the given cursor indices. -/
def selectSeq : apptree_control → List Int → apptree_control
  | c, [] => c
  | c, i :: rest => selectSeq (selectAt c i) rest

theorem selectAt_cases (c : apptree_control) (i : Int)
    (hleaf : (getNode c (childAt c c.current i)).children = []) :
    selectAt c i =
      if (getNode c (childAt c c.current i)).function = true
      then apptree_update_selected { c with select_pos := i } c.current i
      else { c with select_pos := i } := by
  unfold selectAt
  rw [handle_select_input_cases { c with select_pos := i } hleaf]
  split_ifs with h1 h2 h3
  · rfl
  · exact absurd h1 h2
  · exact absurd h3 h1
  · rfl

theorem selectAt_proj (c : apptree_control) (i : Int)
    (hleaf : (getNode c (childAt c c.current i)).children = []) :
    (selectAt c i).current = c.current ∧
    (selectAt c i).nodes.length = c.nodes.length ∧
    (∀ id : Nat, (getNode (selectAt c i) id).children = (getNode c id).children ∧
      (getNode (selectAt c i) id).mode = (getNode c id).mode ∧
      (getNode (selectAt c i) id).function = (getNode c id).function) := by
  rw [selectAt_cases c i hleaf]
  by_cases hf : (getNode c (childAt c c.current i)).function = true
  · rw [if_pos hf]
    refine ⟨(update_selected_viewport _ _ _).2.2.2.1, (update_selected_viewport _ _ _).2.2.2.2, ?_⟩
    intro id
    exact ⟨update_selected_getD_proj (fun n => n.children) (fun b n => rfl) _ c.current i id,
      update_selected_getD_proj (fun n => n.mode) (fun b n => rfl) _ c.current i id,
      update_selected_getD_proj (fun n => n.function) (fun b n => rfl) _ c.current i id⟩
  · rw [if_neg hf]
    exact ⟨rfl, rfl, fun id => ⟨rfl, rfl, rfl⟩⟩

theorem selectAt_indicator (c : apptree_control) (i : Int)
    (hmode : (getNode c c.current).mode = apptree_mode.SINGLE_SELECTION)
    (hnd : (getNode c c.current).children.Nodup)
    (hb : ∀ id ∈ (getNode c c.current).children, id < c.nodes.length)
    (hleaf : (getNode c (childAt c c.current i)).children = [])
    (hf : (getNode c (childAt c c.current i)).function = true)
    (j : Nat) (hj : j < (getNode c c.current).children.length) :
    (getNode (selectAt c i) ((getNode c c.current).children.getD j 0)).selected
      = decide ((j : Int) = i) := by
  rw [selectAt_cases c i hleaf, if_pos hf]
  exact update_selected_single_indicator { c with select_pos := i } c.current i hmode hnd hb j hj

theorem selectAt_atMostOne (c : apptree_control) (i : Int)
    (hmode : (getNode c c.current).mode = apptree_mode.SINGLE_SELECTION)
    (hnd : (getNode c c.current).children.Nodup)
    (hb : ∀ id ∈ (getNode c c.current).children, id < c.nodes.length)
    (hleaf : (getNode c (childAt c c.current i)).children = [])
    (hprev : atMostOne c c.current) :
    atMostOne (selectAt c i) c.current := by
  have hch : ∀ id, (getNode (selectAt c i) id).children = (getNode c id).children :=
    fun id => ((selectAt_proj c i hleaf).2.2 id).1
  intro j k hj hk hsj hsk
  rw [hch] at hj hk hsj hsk
  by_cases hf : (getNode c (childAt c c.current i)).function = true
  · have dj := selectAt_indicator c i hmode hnd hb hleaf hf j hj
    have dk := selectAt_indicator c i hmode hnd hb hleaf hf k hk
    rw [hsj] at dj
    rw [hsk] at dk
    have hji : (j : Int) = i := of_decide_eq_true dj.symm
    have hki : (k : Int) = i := of_decide_eq_true dk.symm
    omega
  · rw [selectAt_cases c i hleaf, if_neg hf] at hsj hsk
    exact hprev j k hj hk hsj hsk

theorem selectSeq_atMostOne (l : List Int) : ∀ c : apptree_control,
    (getNode c c.current).mode = apptree_mode.SINGLE_SELECTION →
    (getNode c c.current).children.Nodup →
    (∀ id ∈ (getNode c c.current).children, id < c.nodes.length) →
    (∀ id ∈ (getNode c c.current).children, (getNode c id).children = []) →
    (∀ i ∈ l, 0 ≤ i ∧ i < ((getNode c c.current).children.length : Int)) →
    atMostOne c c.current →
    atMostOne (selectSeq c l) (selectSeq c l).current := by
  induction l with
  | nil =>
    intro c hm hnd hb hlv hidx hprev
    exact hprev
  | cons i rest ih =>
    intro c hm hnd hb hlv hidx hprev
    obtain ⟨hi0, hi1⟩ := hidx i (List.mem_cons_self i rest)
    have hmem : childAt c c.current i ∈ (getNode c c.current).children := by
      unfold childAt
      exact getD_mem _ _ _ (by omega)
    have hleaf : (getNode c (childAt c c.current i)).children = [] := hlv _ hmem
    obtain ⟨hcur, hlen, hfields⟩ := selectAt_proj c i hleaf
    show atMostOne (selectSeq (selectAt c i) rest) (selectSeq (selectAt c i) rest).current
    apply ih (selectAt c i)
    · rw [hcur, (hfields c.current).2.1]
      exact hm
    · rw [hcur, (hfields c.current).1]
      exact hnd
    · rw [hcur, (hfields c.current).1]
      intro id hm2
      rw [hlen]
      exact hb id hm2
    · rw [hcur, (hfields c.current).1]
      intro id hm2
      rw [(hfields id).1]
      exact hlv id hm2
    · rw [hcur, (hfields c.current).1]
      intro x hx
      exact hidx x (List.mem_cons_of_mem i hx)
    · rw [hcur]
      exact selectAt_atMostOne c i hm hnd hb hleaf hprev

/-- C4 (amended): on an exclusive-mode (Single-Selection) level whose
children are the usual end-node leaves, (a) if at most one child is
selected beforehand, then after any sequence of select events at most one
child is selected; (b) any select event that actually activates a child
(the child has a callback) leaves exactly the activated child selected,
clearing every sibling, regardless of prior flags. -/
theorem C4_exclusive_amended (c : apptree_control) (l : List Int)
    (hmode : (getNode c c.current).mode = apptree_mode.SINGLE_SELECTION)
    (hnd : (getNode c c.current).children.Nodup)
    (hb : ∀ id ∈ (getNode c c.current).children, id < c.nodes.length)
    (hlv : ∀ id ∈ (getNode c c.current).children, (getNode c id).children = [])
    (hidx : ∀ i ∈ l, 0 ≤ i ∧ i < ((getNode c c.current).children.length : Int)) :
    (atMostOne c c.current → atMostOne (selectSeq c l) (selectSeq c l).current) ∧
    (∀ i : Int, 0 ≤ i → i < ((getNode c c.current).children.length : Int) →
      (getNode c (childAt c c.current i)).function = true →
      ∀ j : Nat, j < (getNode c c.current).children.length →
        (getNode (selectAt c i) ((getNode c c.current).children.getD j 0)).selected
          = decide ((j : Int) = i)) := by
  constructor
  · exact fun hprev => selectSeq_atMostOne l c hmode hnd hb hlv hidx hprev
  · intro i hi0 hi1 hf j hj
    have hmem : childAt c c.current i ∈ (getNode c c.current).children := by
      unfold childAt
      exact getD_mem _ _ _ (by omega)
    exact selectAt_indicator c i hmode hnd hb (hlv _ hmem) hf j hj

/-- An activated engine whose current node is exclusive-mode with two
children that were both created with `selected = true` and carry no
activation callback (both allowed by `apptree_create_node`). -/
def exclCtrlBad : apptree_control :=
  { nodes := [
      { title := "M", info := none, parent := none,
        mode := apptree_mode.SINGLE_SELECTION,
        children := [1, 2], selected := false, isEnd := false, function := false },
      { title := "A", info := some ("a"), parent := some 0, mode := apptree_mode.SIMPLE,
        children := [], selected := true, isEnd := true, function := false },
      { title := "B", info := some ("b"), parent := some 0, mode := apptree_mode.SIMPLE,
        children := [], selected := true, isEnd := true, function := false } ],
    master := 0, current := 0, picture := ["A", "B"], picture_height := 2,
    frame_pos := 0, select_pos := 0, enabled := true, keys := demoKeys }

/-- Counterexample to C4 as stated: on the exclusive-mode node of
`exclCtrlBad`, after the select event on child 0 (a childless child with no
callback, so `apptree_handle_select_input` is a no-op), both children still
have `selected = true`. -/
theorem C4_counterexample :
    (getNode exclCtrlBad exclCtrlBad.current).mode = apptree_mode.SINGLE_SELECTION ∧
    (getNode (selectSeq exclCtrlBad [0])
        ((getNode (selectSeq exclCtrlBad [0]) (selectSeq exclCtrlBad [0]).current).children.getD 0 0)).selected
        = true ∧
    (getNode (selectSeq exclCtrlBad [0])
        ((getNode (selectSeq exclCtrlBad [0]) (selectSeq exclCtrlBad [0]).current).children.getD 1 0)).selected
        = true ∧
    ¬ atMostOne (selectSeq exclCtrlBad [0]) (selectSeq exclCtrlBad [0]).current := by
  refine ⟨rfl, by decide, by decide, ?_⟩
  intro h
  have h01 := h 0 1 (by decide) (by decide) (by decide) (by decide)
  exact absurd h01 (by decide)

/-- An activated engine whose current node is exclusive-mode with two leaf
children carrying activation callbacks; child 0 starts selected. -/
def exclCtrl : apptree_control :=
  { nodes := [
      { title := "M", info := none, parent := none,
        mode := apptree_mode.SINGLE_SELECTION,
        children := [1, 2], selected := false, isEnd := false, function := false },
      { title := "A", info := some ("a"), parent := some 0, mode := apptree_mode.SIMPLE,
        children := [], selected := true, isEnd := true, function := true },
      { title := "B", info := some ("b"), parent := some 0, mode := apptree_mode.SIMPLE,
        children := [], selected := false, isEnd := true, function := true } ],
    master := 0, current := 0, picture := ["A", "B"], picture_height := 2,
    frame_pos := 0, select_pos := 0, enabled := true, keys := demoKeys }

/-- Witness for the amended C4 at `exclCtrl` with the select sequence
`[1]`. -/
theorem C4_exclusive_amended_witness :
    atMostOne (selectSeq exclCtrl [1]) (selectSeq exclCtrl [1]).current :=
  (C4_exclusive_amended exclCtrl [1] rfl (by decide) (by decide) (by decide) (by decide)).1
    (by
      intro j k hj hk hsj hsk
      have hlen : (getNode exclCtrl exclCtrl.current).children.length = 2 := rfl
      rw [hlen] at hj hk
      interval_cases j <;> interval_cases k <;> revert hsj hsk <;> decide)

/-! ## Multi-mode toggle involution (C5) -/

theorem updateAt_toggle_twice (l : List apptree_node) (id : Nat) :
    ((updateAt (updateAt l id toggleSel) id toggleSel).getD id default).selected
      = (l.getD id default).selected := by
  by_cases h : id < l.length
  · rw [updateAt_getD_lt _ _ _ (by rw [updateAt_length]; exact h) _,
      updateAt_getD_lt _ _ _ h _]
    simp [toggleSel]
  · rw [updateAt_ge l id _ (by omega)]
    rw [updateAt_ge l id _ (by omega)]

/-- A select event on a childless, callback-bearing child of a
Multi-Selection node toggles exactly that child's flag. -/
theorem select_event_multi_toggle (c : apptree_control)
    (hmode : (getNode c c.current).mode = apptree_mode.MULTI_SELECTION)
    (hleaf : (getNode c (childAt c c.current c.select_pos)).children = [])
    (hf : (getNode c (childAt c c.current c.select_pos)).function = true) :
    (apptree_handle_select_input c).1 =
      { c with nodes := updateAt c.nodes (childAt c c.current c.select_pos) toggleSel } := by
  rw [handle_select_input_cases c hleaf, if_pos hf]
  exact update_selected_multi c c.current c.select_pos hmode

/-- `select_event_multi_toggle` with the current node and cursor named by
equations, for applying it to a state only known through such equations. -/
theorem select_event_multi_toggle_gen (d : apptree_control) (cur : Nat) (sp : Int)
    (hcur : d.current = cur) (hsp : d.select_pos = sp)
    (hmode : (getNode d cur).mode = apptree_mode.MULTI_SELECTION)
    (hleaf : (getNode d (childAt d cur sp)).children = [])
    (hf : (getNode d (childAt d cur sp)).function = true) :
    (apptree_handle_select_input d).1 =
      { d with nodes := updateAt d.nodes (childAt d cur sp) toggleSel } := by
  subst hcur
  subst hsp
  exact select_event_multi_toggle d hmode hleaf hf

/-- C5: on a Multi-Selection node, two consecutive select events on the
(childless) child under the cursor leave that child's `selected` flag as it
was before: with a callback the flag is toggled twice, without one both
events are no-ops. -/
theorem C5_multi_toggle_involution (c : apptree_control)
    (hmode : (getNode c c.current).mode = apptree_mode.MULTI_SELECTION)
    (hleaf : (getNode c (childAt c c.current c.select_pos)).children = []) :
    (getNode (apptree_handle_select_input (apptree_handle_select_input c).1).1
        (childAt c c.current c.select_pos)).selected
      = (getNode c (childAt c c.current c.select_pos)).selected := by
  by_cases hf : (getNode c (childAt c c.current c.select_pos)).function = true
  · have heq := select_event_multi_toggle c hmode hleaf hf
    have hnodes1 : (apptree_handle_select_input c).1.nodes
        = updateAt c.nodes (childAt c c.current c.select_pos) toggleSel := by
      rw [heq]
    have hcur1 : (apptree_handle_select_input c).1.current = c.current := by
      rw [heq]
    have hsp1 : (apptree_handle_select_input c).1.select_pos = c.select_pos := by
      rw [heq]
    have hchC : (getNode (apptree_handle_select_input c).1 c.current).children
        = (getNode c c.current).children := by
      unfold getNode
      have hp : ((updateAt c.nodes (childAt c c.current c.select_pos) toggleSel).getD
            c.current default).children = (c.nodes.getD c.current default).children :=
        updateAt_getD_proj (fun n => n.children) c.nodes _ toggleSel (fun n => rfl) c.current default
      rw [hnodes1, hp]
    have htid : childAt (apptree_handle_select_input c).1 c.current c.select_pos
        = childAt c c.current c.select_pos := by
      unfold childAt
      rw [hchC]
    have hmode1 : (getNode (apptree_handle_select_input c).1 c.current).mode
        = apptree_mode.MULTI_SELECTION := by
      unfold getNode
      have hp : ((updateAt c.nodes (childAt c c.current c.select_pos) toggleSel).getD
            c.current default).mode = (c.nodes.getD c.current default).mode :=
        updateAt_getD_proj (fun n => n.mode) c.nodes _ toggleSel (fun n => rfl) c.current default
      rw [hnodes1, hp]
      exact hmode
    have hleaf1 : (getNode (apptree_handle_select_input c).1
        (childAt (apptree_handle_select_input c).1 c.current c.select_pos)).children = [] := by
      rw [htid]
      unfold getNode
      have hp : ((updateAt c.nodes (childAt c c.current c.select_pos) toggleSel).getD
            (childAt c c.current c.select_pos) default).children
          = (c.nodes.getD (childAt c c.current c.select_pos) default).children :=
        updateAt_getD_proj (fun n => n.children) c.nodes _ toggleSel (fun n => rfl) _ default
      rw [hnodes1, hp]
      exact hleaf
    have hf1 : (getNode (apptree_handle_select_input c).1
        (childAt (apptree_handle_select_input c).1 c.current c.select_pos)).function = true := by
      rw [htid]
      unfold getNode
      have hp : ((updateAt c.nodes (childAt c c.current c.select_pos) toggleSel).getD
            (childAt c c.current c.select_pos) default).function
          = (c.nodes.getD (childAt c c.current c.select_pos) default).function :=
        updateAt_getD_proj (fun n => n.function) c.nodes _ toggleSel (fun n => rfl) _ default
      rw [hnodes1, hp]
      exact hf
    have heq2 := select_event_multi_toggle_gen (apptree_handle_select_input c).1
      c.current c.select_pos hcur1 hsp1 hmode1 hleaf1 hf1
    rw [heq2, htid, hnodes1]
    exact updateAt_toggle_twice c.nodes (childAt c c.current c.select_pos)
  · have h1 : (apptree_handle_select_input c).1 = c := by
      rw [handle_select_input_cases c hleaf, if_neg hf]
    rw [h1, h1]

/-- An activated engine whose current node is Multi-Selection with two leaf
children carrying activation callbacks. -/
def multiCtrl : apptree_control :=
  { nodes := [
      { title := "M", info := none, parent := none,
        mode := apptree_mode.MULTI_SELECTION,
        children := [1, 2], selected := false, isEnd := false, function := false },
      { title := "A", info := some ("a"), parent := some 0, mode := apptree_mode.SIMPLE,
        children := [], selected := false, isEnd := true, function := true },
      { title := "B", info := some ("b"), parent := some 0, mode := apptree_mode.SIMPLE,
        children := [], selected := true, isEnd := true, function := true } ],
    master := 0, current := 0, picture := ["A", "B"], picture_height := 2,
    frame_pos := 0, select_pos := 0, enabled := true, keys := demoKeys }

/-- Witness for C5 at `multiCtrl` (cursor on child 0, which has a
callback). -/
theorem C5_multi_toggle_involution_witness :
    (getNode (apptree_handle_select_input (apptree_handle_select_input multiCtrl).1).1
        (childAt multiCtrl multiCtrl.current multiCtrl.select_pos)).selected
      = (getNode multiCtrl (childAt multiCtrl multiCtrl.current multiCtrl.select_pos)).selected :=
  C5_multi_toggle_involution multiCtrl rfl rfl

/-! ## Node creation and the end-node rule (C6) -/

theorem getD_append_length {α : Type} (l : List α) (a d : α) :
    (l ++ [a]).getD l.length d = a := by
  induction l with
  | nil => rfl
  | cons x t ih =>
    simp only [List.cons_append, List.length_cons, List.getD_cons_succ]
    exact ih

theorem updateAt_getD_isEnd (l : List apptree_node) (i : Nat)
    (f : apptree_node → apptree_node) (hf : ∀ n, (f n).isEnd = n.isEnd) (j : Nat) :
    ((updateAt l i f).getD j default).isEnd = (l.getD j default).isEnd :=
  updateAt_getD_proj (fun n => n.isEnd) l i f hf j default

/-- C6: if `apptree_create_node` succeeds, the new child's end flag is set
iff the parent's mode is not Simple; and any call on a parent whose end
flag is set fails, the failing check being the end-node check whenever the
engine is not yet enabled (so a second-level create under a child of an
exclusive- or multi-mode parent fails). -/
theorem C6_end_node_rule (c : apptree_control) (allocOk : Bool) (parent : Nat)
    (title info : String) (mode : apptree_mode) (sel fn : Bool) :
    (∀ c2 id, apptree_create_node c allocOk parent title info mode sel fn
        = Except.ok (c2, id) →
      (getNode c2 id).isEnd = decide ((getNode c parent).mode ≠ apptree_mode.SIMPLE)) ∧
    ((getNode c parent).isEnd = true →
      ∀ c2 id, apptree_create_node c allocOk parent title info mode sel fn
        ≠ Except.ok (c2, id)) ∧
    (c.enabled = false → (getNode c parent).isEnd = true →
      apptree_create_node c allocOk parent title info mode sel fn
        = Except.error apptree_err.EndNodeViolation) := by
  refine ⟨?_, ?_, ?_⟩
  · intro c2 id hok
    unfold apptree_create_node at hok
    by_cases he : c.enabled = true
    · rw [if_pos he] at hok
      exact absurd hok (by simp)
    · rw [if_neg he] at hok
      by_cases hend : (getNode c parent).isEnd = true
      · rw [if_pos hend] at hok
        exact absurd hok (by simp)
      · rw [if_neg hend] at hok
        by_cases hal : (!allocOk) = true
        · rw [if_pos hal] at hok
          exact absurd hok (by simp)
        · rw [if_neg hal] at hok
          by_cases hv : (!apptree_validate_node c parent) = true
          · rw [if_pos hv] at hok
            exact absurd hok (by simp)
          · rw [if_neg hv] at hok
            rw [Except.ok.injEq, Prod.mk.injEq] at hok
            obtain ⟨h3, h4⟩ := hok
            subst h4
            subst h3
            show ((updateAt _ parent
              (fun n => { n with children := n.children ++ [c.nodes.length] })).getD
                c.nodes.length default).isEnd = _
            rw [updateAt_getD_isEnd _ parent
              (fun n => { n with children := n.children ++ [c.nodes.length] })
              (fun n => rfl) c.nodes.length]
            rw [getD_append_length]
  · intro hend c2 id hok
    unfold apptree_create_node at hok
    by_cases he : c.enabled = true
    · rw [if_pos he] at hok
      exact absurd hok (by simp)
    · rw [if_neg he, if_pos hend] at hok
      exact absurd hok (by simp)
  · intro he hend
    unfold apptree_create_node
    rw [if_neg (by simp [he]), if_pos hend]

/-- A setup-phase (not yet enabled) engine: an exclusive-mode master
(node 0) with one end-node child (node 1), exactly the state an
`apptree_create_node` call under an exclusive parent produces. -/
def setupCtrl : apptree_control :=
  { nodes := [
      { title := "M", info := none, parent := none,
        mode := apptree_mode.SINGLE_SELECTION,
        children := [1], selected := false, isEnd := false, function := false },
      { title := "A", info := some ("a"), parent := some 0, mode := apptree_mode.SIMPLE,
        children := [], selected := false, isEnd := true, function := false } ],
    master := 0, current := 0, picture := [], picture_height := 0,
    frame_pos := 0, select_pos := 0, enabled := false, keys := demoKeys }

/-- Witness for C6: the second-level create under the end-node child of
the exclusive master of `setupCtrl` fails at the end-node check. -/
theorem C6_end_node_rule_witness :
    apptree_create_node setupCtrl true 1 "x" "y" apptree_mode.SIMPLE false false
      = Except.error apptree_err.EndNodeViolation :=
  (C6_end_node_rule setupCtrl true 1 "x" "y" apptree_mode.SIMPLE false false).2.2 rfl rfl

/-- C7: a select input on a childless child with no activation callback is
an intentional no-op reported as success: the whole engine state (active
node, cursor, frame position, every selected flag) is unchanged, nothing
is rendered, no callback runs, and `apptree_handle_input` returns 0. -/
theorem C7_select_noop (c : apptree_control)
    (hen : c.enabled = true)
    (hk1 : c.keys.select ≠ c.keys.up) (hk2 : c.keys.select ≠ c.keys.down)
    (hleaf : (getNode c (childAt c c.current c.select_pos)).children = [])
    (hfn : (getNode c (childAt c c.current c.select_pos)).function = false) :
    apptree_handle_input c (some c.keys.select) = (c, [], 0) := by
  rw [handle_input_enabled c hen c.keys.select, if_neg hk1, if_neg hk2, if_pos rfl,
    handle_select_input_cases c hleaf, if_neg (by simp [hfn])]

/-- Witness for C7 at `demoCtrl` (child "A" has no children and no
callback). -/
theorem C7_select_noop_witness :
    apptree_handle_input demoCtrl (some demoCtrl.keys.select) = (demoCtrl, [], 0) :=
  C7_select_noop demoCtrl rfl (by decide) (by decide) (by decide) (by decide)

/-- C8: `apptree_handle_input` fails (returns -1) exactly when the engine
is not activated or the input source reports no input; in every other case
it returns 0, and a byte matching none of the five bindings leaves the
state unchanged and renders nothing. -/
theorem C8_handle_input_result (c : apptree_control) (inp : Option Char) :
    ((apptree_handle_input c inp).2.2 = -1 ↔ (c.enabled = false ∨ inp = none)) ∧
    ((apptree_handle_input c inp).2.2 = 0 ↔ (c.enabled = true ∧ inp ≠ none)) ∧
    (∀ ch : Char, inp = some ch → c.enabled = true →
      ch ≠ c.keys.up → ch ≠ c.keys.down → ch ≠ c.keys.select → ch ≠ c.keys.back →
      ch ≠ c.keys.home → apptree_handle_input c inp = (c, [], 0)) := by
  by_cases hen : c.enabled = true
  · cases inp with
    | none =>
      rw [handle_input_none]
      refine ⟨by simp [hen], by simp [hen], ?_⟩
      intro ch hch
      exact absurd hch (by simp)
    | some ch =>
      have h0 : (apptree_handle_input c (some ch)).2.2 = 0 := by
        rw [handle_input_enabled c hen ch]
        by_cases h1 : ch = c.keys.up
        · rw [if_pos h1]
        · rw [if_neg h1]
          by_cases h2 : ch = c.keys.down
          · rw [if_pos h2]
          · rw [if_neg h2]
            by_cases h3 : ch = c.keys.select
            · rw [if_pos h3]
            · rw [if_neg h3]
              by_cases h4 : ch = c.keys.back
              · rw [if_pos h4]
              · rw [if_neg h4]
                by_cases h5 : ch = c.keys.home
                · rw [if_pos h5]
                · rw [if_neg h5]
      refine ⟨by rw [h0]; simp [hen], by rw [h0]; simp [hen], ?_⟩
      intro ch2 hch hen2 k1 k2 k3 k4 k5
      have hch2 : ch = ch2 := by
        injection hch
      subst hch2
      rw [handle_input_enabled c hen ch, if_neg k1, if_neg k2, if_neg k3, if_neg k4,
        if_neg k5]
  · have hf : c.enabled = false := by
      cases hb : c.enabled
      · rfl
      · exact absurd hb hen
    rw [handle_input_disabled c hf inp]
    refine ⟨by simp [hf], by simp [hf], ?_⟩
    intro ch hch hen2
    exact absurd hen2 hen

/-- Witness for C8 at `demoCtrl` and the unbound byte `z`. -/
theorem C8_handle_input_result_witness :
    apptree_handle_input demoCtrl (some 'z') = (demoCtrl, [], 0) :=
  (C8_handle_input_result demoCtrl (some 'z')).2.2 'z' rfl rfl (by decide) (by decide)
    (by decide) (by decide) (by decide)

/-- C9 (code bug): `apptree_resize_picture` does report the allocation
failure to its caller (-1), but `apptree_enable` discards that return
value (apptree.c line 430) and still returns 0, so an allocation failure
while resizing the picture buffer during activation is never surfaced to
the caller of `apptree_enable`. -/
theorem C9_enable_ignores_resize_failure :
    apptree_resize_picture false = -1 ∧
    (∀ c : apptree_control, (apptree_enable c false).2.2 = 0) :=
  ⟨rfl, fun c => rfl⟩

/-- C10: while active, an up or down input changes at most the cursor and
frame position: the arena (hence the tree structure and every selected
flag), the active node, the picture, the picture height, the enabled flag,
the master handle and the key bindings are unchanged. -/
theorem C10_cursor_motion_frame (c : apptree_control) (ch : Char)
    (hen : c.enabled = true)
    (hkey : ch = c.keys.up ∨ ch = c.keys.down) :
    (apptree_handle_input c (some ch)).1.nodes = c.nodes ∧
    (apptree_handle_input c (some ch)).1.current = c.current ∧
    (apptree_handle_input c (some ch)).1.picture = c.picture ∧
    (apptree_handle_input c (some ch)).1.picture_height = c.picture_height ∧
    (apptree_handle_input c (some ch)).1.enabled = c.enabled ∧
    (apptree_handle_input c (some ch)).1.master = c.master ∧
    (apptree_handle_input c (some ch)).1.keys = c.keys := by
  rw [handle_input_enabled c hen ch]
  by_cases h1 : ch = c.keys.up
  · rw [if_pos h1]
    exact ⟨rfl, rfl, rfl, rfl, rfl, rfl, rfl⟩
  · rw [if_neg h1]
    rcases hkey with hk | hk
    · exact absurd hk h1
    · rw [if_pos hk]
      exact ⟨rfl, rfl, rfl, rfl, rfl, rfl, rfl⟩

/-- Witness for C10 at `demoCtrl` and its `down` key. -/
theorem C10_cursor_motion_frame_witness :
    (apptree_handle_input demoCtrl (some 'd')).1.nodes = demoCtrl.nodes ∧
    (apptree_handle_input demoCtrl (some 'd')).1.current = demoCtrl.current ∧
    (apptree_handle_input demoCtrl (some 'd')).1.picture = demoCtrl.picture ∧
    (apptree_handle_input demoCtrl (some 'd')).1.picture_height = demoCtrl.picture_height ∧
    (apptree_handle_input demoCtrl (some 'd')).1.enabled = demoCtrl.enabled ∧
    (apptree_handle_input demoCtrl (some 'd')).1.master = demoCtrl.master ∧
    (apptree_handle_input demoCtrl (some 'd')).1.keys = demoCtrl.keys :=
  C10_cursor_motion_frame demoCtrl 'd' rfl (Or.inr rfl)
